import Mathlib

/-!
# Verification of the analytiCV overlay text-editing core

Shallow embedding of the overlay text editing and reconciliation engine:
the editor storage (`editorStorage.ts`), the display-text resolver and the
pending-save queue of `DocumentCanvas.tsx`, the API layer (`editorApi.ts`),
the font classifier (`fontMapper.ts`), the PDF exporters (`pdfExport.ts`),
and the extraction loop of `DocumentCanvas.renderPage`.

JavaScript `Map`s and plain objects used as string-keyed dictionaries are
embedded as association lists with a set-or-replace update, preserving
insertion/iteration order.  Optional document state (`localStorage`) is an
`Option` value threaded explicitly.
-/

namespace AnalytiCV

/-- Association-list lookup; models `map.get(k)` / `obj[k]` returning
`undefined` as `none`.  First match wins, matching JS objects/Maps which
never hold duplicate keys. -/
def alookup {α : Type} (l : List (String × α)) (k : String) : Option α :=
  match l with
  | [] => none
  | (k', v) :: rest => if k' = k then some v else alookup rest k

/-- Association-list set-or-replace; models `map.set(k, v)` / `obj[k] = v`:
an existing key keeps its position and gets the new value, a new key is
appended. -/
def aset {α : Type} (l : List (String × α)) (k : String) (v : α) :
    List (String × α) :=
  match l with
  | [] => [(k, v)]
  | (k', v') :: rest =>
    if k' = k then (k, v) :: rest else (k', v') :: aset rest k v

/-- One block update as sent to the backend (`BlockUpdate` in
`editorApi.ts` / `DocumentCanvas.tsx`). -/
structure BlockUpdate where
  blockId : String
  oldText : String
  newText : String
  «section» : Option String
deriving Repr, DecidableEq

/-- The durable record kept in `localStorage` (`StoredEdits` in
`editorStorage.ts`): a blockId → newText map with document name, timestamp
and dirty flag. -/
structure StoredEdits where
  edits : List (String × String)
  timestamp : Nat
  pdfName : String
  isDirty : Bool
deriving Repr, DecidableEq

/-- Model of `saveEditsToStorage` (editorStorage.ts): merges `updates` into the
stored record.  If the stored record's `pdfName` differs from the given
one, the merge starts from an empty edits map; the resulting record is
keyed to the given `pdfName` with `isDirty := markDirty` and a fresh
timestamp. -/
def saveEditsToStorage (updates : List BlockUpdate) (pdfName : String)
    (markDirty : Bool) (now : Nat) (existing : Option StoredEdits) :
    StoredEdits :=
  let edits :=
    match existing with
    | some st => if st.pdfName = pdfName then st.edits else []
    | none => []
  let edits := updates.foldl (fun acc u => aset acc u.blockId u.newText) edits
  { edits := edits, timestamp := now, pdfName := pdfName, isDirty := markDirty }

/-- Model of `markEditsDirty` (editorStorage.ts): sets the dirty flag of the stored
record, when one exists. -/
def markEditsDirty (existing : Option StoredEdits) : Option StoredEdits :=
  existing.map (fun st => { st with isDirty := true })

/-- Model of `getResolvedText` (DocumentCanvas.tsx): resolves the display text for a
block.  Priority 1: the backend-saved `updatedBlocks` map; priority 2: the
`localStorage` record (JS truthiness: an empty stored string falls
through); priority 3: the original PDF text. -/
def getResolvedText (updatedBlocks : List (String × String))
    (stored : Option StoredEdits) (blockId originalText : String) : String :=
  match alookup updatedBlocks blockId with
  | some t => t
  | none =>
    match stored with
    | some st =>
      match alookup st.edits blockId with
      | some t => if t ≠ "" then t else originalText
      | none => originalText
    | none => originalText

/-- A text block as extracted by the backend (`TextBlock` in
`types/editor.ts`); geometry is rational-valued. -/
structure TextBlock where
  id : String
  text : String
  x : ℚ
  y : ℚ
  width : ℚ
  height : ℚ
  page : Nat
  font_size : ℚ
  font_name : String
  block_type : String
  «section» : Option String
deriving Repr, DecidableEq

/-- Applying an edits map over a block list: each block whose id has a
(JS-truthy, i.e. non-empty) entry gets that entry as its text.  This is
the `blocks.map(...)` pattern of `extractPDFBlocks` /
`mergeCurrentEditsIntoBlocks` (editorApi.ts). -/
def applyEdits (edits : List (String × String)) (blocks : List TextBlock) :
    List TextBlock :=
  blocks.map (fun b =>
    match alookup edits b.id with
    | some t => if t ≠ "" then { b with text := t } else b
    | none => b)

/-- The merge phase of `extractPDFBlocks` (editorApi.ts): if the
`localStorage` record matches the uploaded file's name and is dirty, its
edits are applied and the backend-fetched edits are not consulted;
otherwise the backend-fetched edits are applied. -/
def extractPDFBlocksMerge (stored : Option StoredEdits) (fileName : String)
    (remoteEdits : List (String × String)) (blocks : List TextBlock) :
    List TextBlock :=
  match stored with
  | some st =>
    if st.pdfName = fileName ∧ st.isDirty then applyEdits st.edits blocks
    else applyEdits remoteEdits blocks
  | none => applyEdits remoteEdits blocks

/-- JS `Set.add`: appends the element unless already present. -/
def sadd (l : List String) (x : String) : List String :=
  if l.contains x then l else l ++ [x]

/-- The mutable editing state of `DocumentCanvas.tsx` relevant to the
focused block: the focused span's live DOM text, the block record behind
it, the rollback snapshot (`originalTextRef`), the pending-save queue
(`pendingSavesRef`, a JS `Map` keyed by block id), the changed-id set
(`pendingChangesRef`), the save-in-flight flag (`isSavingRef`) and the
`localStorage` record. -/
structure CanvasState where
  spanText : String
  blockId : String
  blockText : String
  sectionTag : String
  isEdited : Bool
  snapshot : Option String
  pendingSaves : List (String × BlockUpdate)
  pendingChanges : List String
  isSaving : Bool
  stored : Option StoredEdits
deriving Repr, DecidableEq

/-- Model of `queueBlockSave` (DocumentCanvas.tsx): a no-op when `oldText ===
newText`; otherwise `Map.set` on the pending-save queue (replacing any
still-pending entry for the same id) and `Set.add` on the changed ids. -/
def queueBlockSave (st : CanvasState) (blockId oldText newText : String)
    (sec : Option String) : CanvasState :=
  if oldText = newText then st
  else
    { st with
      pendingSaves :=
        aset st.pendingSaves blockId ⟨blockId, oldText, newText, sec⟩,
      pendingChanges := sadd st.pendingChanges blockId }

/-- The network requests a flush issues: `saveChanges` maps each value of
the pending-save queue to one `saveCallback` call
(`Promise.all(updates.map(update => saveCallback(update)))`). -/
def flushRequests (st : CanvasState) : List BlockUpdate :=
  st.pendingSaves.map Prod.snd

/-- Model of `saveChanges` (DocumentCanvas.tsx): returns `true` immediately when
the queue is empty or a save is already in flight; otherwise issues all
pending saves, and on success clears the queue and returns `true`, on
failure leaves the queue untouched and returns `false`.  `saveOk`
abstracts whether every issued `saveCallback` promise resolved. -/
def saveChanges (saveOk : Bool) (st : CanvasState) : Bool × CanvasState :=
  if st.pendingSaves.isEmpty ∨ st.isSaving then (true, st)
  else if saveOk then
    (true, { st with pendingSaves := [], pendingChanges := [] })
  else (false, st)

/-- Model of `handleFocus` (DocumentCanvas.tsx): snapshots the focused span's
current text as the edit's rollback point (`originalTextRef.set`). -/
def handleFocus (st : CanvasState) : CanvasState :=
  { st with snapshot := some st.spanText }

/-- Typing into the focused span: the DOM text changes and the
`MutationObserver` (`handleTextMutation`) adds the block id to the
changed-id set when the new text differs from `block.text`.  No
persistence side effect. -/
def typeText (t : String) (st : CanvasState) : CanvasState :=
  { st with
    spanText := t,
    pendingChanges :=
      if t ≠ st.blockText then sadd st.pendingChanges st.blockId
      else st.pendingChanges }

/-- Model of `handleBlur` (DocumentCanvas.tsx): compares the span text to the
rollback snapshot (JS truthiness: an empty snapshot falls back to
`block.text`).  If changed: commits to the block record, re-snapshots,
writes through to `localStorage` (`saveEditsToStorage` + `markEditsDirty`)
and queues a pending remote save; if unchanged, only styling changes. -/
def handleBlur (now : Nat) (st : CanvasState) : CanvasState :=
  let newText := st.spanText
  let originalText :=
    match st.snapshot with
    | some s => if s ≠ "" then s else st.blockText
    | none => st.blockText
  if newText ≠ originalText then
    let st1 :=
      { st with
        blockText := newText, isEdited := true, snapshot := some newText }
    let st2 :=
      { st1 with
        stored := markEditsDirty (some (saveEditsToStorage
          [⟨st.blockId, originalText, newText, some st.sectionTag⟩]
          "current_resume" true now st.stored)) }
    queueBlockSave st2 st.blockId originalText newText (some st.sectionTag)
  else st

/-- Escape while editing (`handleKeyDown`, DocumentCanvas.tsx): restore
the span's DOM text from the rollback snapshot (guarded by the
programmatic-change flag so the observer ignores it), then blur. -/
def handleEscape (now : Nat) (st : CanvasState) : CanvasState :=
  let st' :=
    match st.snapshot with
    | some s => { st with spanText := s }
    | none => st
  handleBlur now st'

/-- ATS score breakdown item (`ATSBreakdownItem`, editorApi.ts). -/
structure ATSBreakdownItem where
  label : String
  score : ℚ
  max_score : ℚ
  percentage : ℚ
deriving Repr, DecidableEq

/-- Detailed ATS score (`ATSScoreDetails`, editorApi.ts). -/
structure ATSScoreDetails where
  total_score : ℚ
  grade : String
  breakdown : List ATSBreakdownItem
deriving Repr, DecidableEq

/-- Backend response of `POST /api/update-resume`
(`UpdateResumeResponse`, editorApi.ts). -/
structure UpdateResumeResponse where
  success : Bool
  message : String
  atsScore : Option ℚ
  atsScoreDetails : Option ATSScoreDetails
  updatedBlocks : Option (List String)
deriving Repr, DecidableEq

/-- Save error classification (`SaveError`, editorApi.ts). -/
inductive SaveErrorCode where
  | NETWORK_ERROR
  | SERVER_ERROR
  | VALIDATION_ERROR
  | UNKNOWN_ERROR
deriving Repr, DecidableEq

/-- Structured save error thrown to the UI (`SaveError`, editorApi.ts). -/
structure SaveError where
  message : String
  code : SaveErrorCode
  details : Option String
deriving Repr, DecidableEq

/-- Outcome of one `fetch` attempt against `/api/update-resume`: a parsed
success response, a non-ok HTTP status (with the message extracted from
the body), an abort fired by the timeout controller, or a network-level
`TypeError`. -/
inductive FetchOutcome where
  | ok (resp : UpdateResumeResponse)
  | httpErr (status : Nat) (errorMessage : String)
  | abortErr
  | typeErr
deriving Repr, DecidableEq

/-- The early-return response when there is nothing to save. -/
def noChangesResponse : UpdateResumeResponse :=
  ⟨true, "No changes to save", none, none, none⟩

/-- Error built from a non-ok HTTP response (editorApi.ts): 422 maps to
`VALIDATION_ERROR`, everything else (404, 5xx, other 4xx) to
`SERVER_ERROR`; 404 gets a dedicated message. -/
def httpSaveError (status : Nat) (errorMessage : String) : SaveError :=
  { message :=
      if status = 404 then
        "Save endpoint not found. Make sure backend is running on http://localhost:8000"
      else errorMessage,
    code := if status = 422 then .VALIDATION_ERROR else .SERVER_ERROR,
    details := some ("HTTP " ++ toString status) }

/-- The error surfaced when the abort controller fires (request timeout,
default 10s). -/
def timeoutSaveError : SaveError :=
  ⟨"Request timed out. Please try again.", .NETWORK_ERROR, none⟩

/-- The error surfaced when a network `TypeError` occurs and no retry
budget remains. -/
def networkSaveError : SaveError :=
  ⟨"Network error. Make sure backend is running on http://localhost:8000",
   .NETWORK_ERROR, none⟩

/-- JS `Set`/`List` membership used below for the pending-request keys;
`sadd` is defined earlier.  The request key of `getRequestKey`
(editorApi.ts): `blocks.map(b => blockId:newText).join(pipe)` — the
`(blockId, newText)` dedup key. -/
def getRequestKey (blocks : List BlockUpdate) : String :=
  String.intercalate "|"
    (blocks.map (fun b => b.blockId ++ ":" ++ b.newText))

/-- How the promise returned by one `updateResumeBlocks` call settles,
as observed by its caller.  `settled` carries the resolution or the
thrown `SaveError`; `joinsPending` means the dedup check found the same
request key already registered and returned that in-flight promise (no
new fetch), so this call settles if and when that one does;
`neverSettles` means the promise is locked in the mutual-adoption cycle
described at `updateResumeBlocks` and never settles. -/
inductive SaveSettlement where
  | settled (r : Except SaveError UpdateResumeResponse)
  | joinsPending
  | neverSettles
deriving Repr

/-- Resolving a call's own promise with the promise returned by the
in-catch retry (`return updateResumeBlocks(...)` inside `catch`): if the
retry call merely joined the pending request for the same key — which is
this very call's still-registered promise — then the retry's promise
adopts this call's promise while this call's promise adopts the retry's:
mutual adoption, neither ever settles.  Otherwise this call's promise
adopts the retry's settlement. -/
def adoptRetryResult : SaveSettlement → SaveSettlement
  | .joinsPending => .neverSettles
  | .settled r => .settled r
  | .neverSettles => .neverSettles

/-- Model of `updateResumeBlocks` (editorApi.ts), including the
`pendingRequests` dedup map (`pending` holds the registered request
keys).  An empty block list resolves with `noChangesResponse` before the
dedup check.  A registered key short-circuits to the in-flight promise
(`joinsPending`, no fetch).  Otherwise the async body runs with the key
registered (`pendingRequests.set` executes right after the body starts
and the `finally` that deletes the key runs only after the body's result
expression is evaluated): `outcome 0` is the single `fetch` attempt — a
success resolves; a non-ok HTTP status throws `httpSaveError`; an
`AbortError` (timeout) throws `timeoutSaveError` with no retry; a
`TypeError` with `retry > 0` re-enters `updateResumeBlocks` after the 1s
backoff while its own key is still registered, so the recursive call
hits the dedup check, fetches nothing and returns a promise adopting
this call's own pending promise — `adoptRetryResult` turns that into
`neverSettles`; a `TypeError` with no budget throws `networkSaveError`.
The second component counts the `fetch` attempts made. -/
def updateResumeBlocks (blocks : List BlockUpdate) (retry : Nat)
    (outcome : Nat → FetchOutcome) (pending : List String) :
    SaveSettlement × Nat :=
  if blocks.isEmpty then (.settled (.ok noChangesResponse), 0)
  else if pending.contains (getRequestKey blocks) then (.joinsPending, 0)
  else
    match outcome 0 with
    | .ok resp => (.settled (.ok resp), 1)
    | .httpErr s m => (.settled (.error (httpSaveError s m)), 1)
    | .abortErr => (.settled (.error timeoutSaveError), 1)
    | .typeErr =>
      match retry with
      | Nat.succ r =>
        let res := updateResumeBlocks blocks r outcome
          (sadd pending (getRequestKey blocks))
        (adoptRetryResult res.1, 1 + res.2)
      | 0 => (.settled (.error networkSaveError), 1)

/-- JS `s.trim()`: strip leading and trailing whitespace, implemented
over the character list so that it is kernel-computable. -/
def strTrim (s : String) : String :=
  String.mk (((s.data.dropWhile Char.isWhitespace).reverse.dropWhile
    Char.isWhitespace).reverse)

/-- The validity filter of `batchUpdateBlocks` (editorApi.ts): drops
updates whose text did not change or whose new text is empty after
trimming. -/
def validForSave (b : BlockUpdate) : Bool :=
  b.oldText != b.newText && (strTrim b.newText).length > 0

/-- Model of `batchUpdateBlocks` (editorApi.ts): filters the updates,
resolves with `noChangesResponse` (no request) when none survive, and
otherwise calls `updateResumeBlocks` with the default retry budget of 1
against the current pending-request keys. -/
def batchUpdateBlocks (blocks : List BlockUpdate)
    (outcome : Nat → FetchOutcome) (pending : List String) :
    SaveSettlement × Nat :=
  let validBlocks := blocks.filter validForSave
  if validBlocks.isEmpty then (.settled (.ok noChangesResponse), 0)
  else updateResumeBlocks validBlocks 1 outcome pending

/-- Predicate `charsStart pat s`: does `s` start with `pat` (character lists). -/
def charsStart : List Char → List Char → Bool
  | [], _ => true
  | _ :: _, [] => false
  | p :: ps, c :: cs => p == c && charsStart ps cs

/-- Predicate `charsHasSub pat s`: does `s` contain `pat` as a contiguous substring
(character lists).  Models JS `String.prototype.includes`. -/
def charsHasSub (pat : List Char) : List Char → Bool
  | [] => pat.isEmpty
  | c :: cs => charsStart pat (c :: cs) || charsHasSub pat cs

/-- JS `s.includes(pat)` over Lean strings. -/
def strHasSub (s pat : String) : Bool :=
  charsHasSub pat.data s.data

/-- JS `s.startsWith(pat)` over Lean strings. -/
def strStarts (s pat : String) : Bool :=
  charsStart pat.data s.data

/-- JS `s.toLowerCase()` (ASCII; the font identifiers classified here are
ASCII). -/
def strLower (s : String) : String :=
  String.mk (s.data.map Char.toLower)

/-- Font categories (`FontCategory`, fontMapper.ts).  `decorative` is
declared in the source union but never produced by classification. -/
inductive FontCategory where
  | serif
  | sansSerif
  | monospace
  | decorative
deriving Repr, DecidableEq

/-- Keyword list `SERIF_PATTERNS` (fontMapper.ts). -/
def SERIF_PATTERNS : List String :=
  ["times", "georgia", "garamond", "palatino", "cambria", "book",
   "roman", "serif", "minion", "century", "caslon", "baskerville",
   "didot", "bodoni", "rockwell", "clarendon", "charter", "merriweather"]

/-- Keyword list `SANS_SERIF_PATTERNS` (fontMapper.ts). -/
def SANS_SERIF_PATTERNS : List String :=
  ["arial", "helvetica", "verdana", "tahoma", "calibri", "sans",
   "gothic", "grotesque", "futura", "avenir", "roboto", "open sans",
   "lato", "montserrat", "proxima", "source sans", "nunito", "inter",
   "segoe", "trebuchet", "lucida", "gill", "optima", "candara"]

/-- Keyword list `MONOSPACE_PATTERNS` (fontMapper.ts). -/
def MONOSPACE_PATTERNS : List String :=
  ["mono", "courier", "consolas", "menlo", "code", "typewriter",
   "source code", "fira code", "jetbrains", "inconsolata"]

/-- The regular expression `/^[a-z]_d\d+_f\d+$/i` of `detectFontCategory`
(fontMapper.ts), decided directly over the character list: one ASCII
letter, underscore, `d`, one or more digits, underscore, `f`, one or more
digits, end of string; letters case-insensitive. -/
def genericIdMatch (s : List Char) : Bool :=
  match s with
  | a :: '_' :: d :: rest =>
    a.isAlpha && d.toLower == 'd' &&
    (match rest with
     | r :: _ =>
       r.isDigit &&
       (match rest.dropWhile Char.isDigit with
        | u :: f :: rest2 =>
          u == '_' && f.toLower == 'f' &&
          (match rest2 with
           | g :: _ => g.isDigit && (rest2.dropWhile Char.isDigit).isEmpty
           | [] => false)
        | _ => false)
     | [] => false)
  | _ => false

/-- Model of `detectFontCategory` (fontMapper.ts): substring matching against the
keyword lists, checked monospace first, then sans-serif, then serif, then
the generic-identifier heuristic (`g_` prefix or the subset-font regex,
classified serif), defaulting to sans-serif. -/
def detectFontCategory (fontName : String) : FontCategory :=
  let lowerName := strLower fontName
  if MONOSPACE_PATTERNS.any (fun p => strHasSub lowerName p) then .monospace
  else if SANS_SERIF_PATTERNS.any (fun p => strHasSub lowerName p) then
    .sansSerif
  else if SERIF_PATTERNS.any (fun p => strHasSub lowerName p) then .serif
  else if strStarts fontName "g_" || genericIdMatch fontName.data then .serif
  else .sansSerif

/-- Block weakness record (`BlockWeakness`, types/editor.ts); severity is
one of the strings low / medium / high. -/
structure BlockWeakness where
  id : String
  «section» : Option String
  issue : String
  suggestion : String
  severity : String
  improved_text : Option String
deriving Repr, DecidableEq

/-- Per-block overlay editing state (`EditableBlockState`,
types/editor.ts). -/
structure EditableBlockState where
  id : String
  originalText : String
  currentText : String
  isEditing : Bool
  isDirty : Bool
  weakness : Option BlockWeakness
deriving Repr, DecidableEq

/-- One drawing operation issued against a page of the output PDF:
`page.drawRectangle` or `page.drawText` (pdf-lib). -/
inductive DrawOp where
  | rect (page : Nat) (x y width height : ℚ)
  | text (page : Nat) (s : String) (x y size : ℚ)
deriving Repr, DecidableEq

/-- The drawing operations of `exportToPDF` (pdfExport.ts, fixed
version).  `widthOf fontName text size` abstracts
`font.widthOfTextAtSize` for the font resolved from `fontName`;
`pageHeights` lists the page heights of the loaded document.  A block
with no state or a non-dirty state paints nothing; a dirty block paints
one white cover rectangle and draws the replacement text at the original
font size, after the bottom-left-origin flip `y = pageHeight - block.y -
block.height`. -/
def exportOps (widthOf : String → String → ℚ → ℚ) (pageHeights : List ℚ)
    (blocks : List TextBlock)
    (blockStates : List (String × EditableBlockState)) : List DrawOp :=
  (blocks.map (fun block =>
    match alookup blockStates block.id with
    | none => []
    | some state =>
      if state.isDirty = false then []
      else
        match pageHeights.get? block.page with
        | none => []
        | some pageHeight =>
          let x := block.x
          let y := pageHeight - block.y - block.height
          let fontSize := block.font_size
          let textWidth := widthOf block.font_name state.currentText fontSize
          let coverWidth := max block.width textWidth + 10
          [DrawOp.rect block.page (x - 4) (y - fontSize * (3/10)) coverWidth
            (fontSize * (14/10)),
           DrawOp.text block.page state.currentText x y fontSize])).flatten

/-- The drawing operations of the earlier `exportToPDF` (pdfExport.ts,
first version): same dirty-state gate, a tighter cover rectangle, and
multi-line replacement text drawn downwards with a 1.2 line-height
multiplier. -/
def exportOpsV0 (pageHeights : List ℚ) (blocks : List TextBlock)
    (blockStates : List (String × EditableBlockState)) : List DrawOp :=
  (blocks.map (fun block =>
    match alookup blockStates block.id with
    | none => []
    | some state =>
      if state.isDirty = false then []
      else
        match pageHeights.get? block.page with
        | none => []
        | some pageHeight =>
          let x := block.x
          let y := pageHeight - block.y - block.height
          let fontSize := block.font_size
          let lines := state.currentText.splitOn "\n"
          DrawOp.rect block.page (x - 1) (y - 2) (block.width + 2)
            (block.height + 4) ::
          lines.enum.map (fun p =>
            DrawOp.text block.page p.2 x
              (y + block.height - fontSize - (p.1 : ℚ) * (fontSize * (12/10)))
              fontSize))).flatten

/-- A 2×3 affine matrix `[a, b, c, d, e, f]` as used by PDF.js transforms
(`viewport.transform`, `textItem.transform`). -/
structure Mat6 where
  a : ℚ
  b : ℚ
  c : ℚ
  d : ℚ
  e : ℚ
  f : ℚ
deriving Repr, DecidableEq

/-- PDF.js `Util.transform(m1, m2)`: composition of affine transforms,
`m1` applied after `m2` (the page rendering transform applied to the text
run's text-space transform). -/
def transformMat (m1 m2 : Mat6) : Mat6 :=
  { a := m1.a * m2.a + m1.c * m2.b,
    b := m1.b * m2.a + m1.d * m2.b,
    c := m1.a * m2.c + m1.c * m2.d,
    d := m1.b * m2.c + m1.d * m2.d,
    e := m1.a * m2.e + m1.c * m2.f + m1.e,
    f := m1.b * m2.e + m1.d * m2.f + m1.f }

/-- A positioned text run reported by PDF.js `getTextContent`
(`TextItem`, DocumentCanvas.tsx); `dir`, `height` and `hasEOL` are unused
by the extraction loop and omitted.  The loop's `'str' in item` guard is
reflected by modelling the stream as text items only. -/
structure TextItem where
  str : String
  transform : Mat6
  width : ℚ
  fontName : String
deriving Repr, DecidableEq

/-- An extracted overlay block (`ResumeBlock`, DocumentCanvas.tsx).  The
source stores `fontSize = Math.sqrt(tx[0]² + tx[1]²)`, `y = tx[5] -
fontSize` and `height = fontSize`; those are irrational over ℚ, so the
block stores the transformed baseline `txf = tx[5]` and `fontSizeSq =
tx[0]² + tx[1]²`, and `fontSize`, `y`, `height` are exposed as
real-valued functions below. -/
structure ResumeBlock where
  id : String
  text : String
  «section» : String
  spanIndex : Nat
  x : ℚ
  txf : ℚ
  fontSizeSq : ℚ
  width : ℚ
  fontFamily : String
  isEdited : Bool
deriving Repr, DecidableEq

/-- The block's font size: `Math.sqrt(tx[0]² + tx[1]²)`. -/
noncomputable def ResumeBlock.fontSize (b : ResumeBlock) : ℝ :=
  Real.sqrt (b.fontSizeSq : ℝ)

/-- The block's top-left-origin y coordinate: `tx[5] - fontSize`. -/
noncomputable def ResumeBlock.y (b : ResumeBlock) : ℝ :=
  (b.txf : ℝ) - b.fontSize

/-- The block's height (`height: fontSize` in the source). -/
noncomputable def ResumeBlock.height (b : ResumeBlock) : ℝ :=
  b.fontSize

/-- The running section guess of the extraction loop
(DocumentCanvas.tsx): keyword triggers on the lowercased fragment text,
otherwise the previous guess persists. -/
def sectionOf (prev : String) (text : String) : String :=
  let textLower := strLower text
  if strHasSub textLower "experience" || strHasSub textLower "work" then
    "experience"
  else if strHasSub textLower "education" then "education"
  else if strHasSub textLower "skill" then "skills"
  else if strHasSub textLower "project" then "projects"
  else if strHasSub textLower "summary" || strHasSub textLower "objective"
    then "summary"
  else prev

/-- The block emitted for one (non-skipped) text run of the extraction
loop: the composed transform gives `x = tx[4]` and the baseline `tx[5]`,
`fontSizeSq = tx[0]² + tx[1]²`, the width is scaled, the display text is
resolved (current DOM state first, then `getResolvedText`), and
`isEdited` records whether the resolved text differs from the run's. -/
def extractedBlock (vt : Mat6) (scale : ℚ) (pageNumber : Nat)
    (savedTexts updatedBlocks : List (String × String))
    (stored : Option StoredEdits) (it : TextItem) (index : Nat)
    (sectionGuess : String) : ResumeBlock :=
  let tx := transformMat vt it.transform
  let sect := sectionOf sectionGuess it.str
  let blockId := "block-" ++ toString pageNumber ++ "-" ++ toString index
  let textToUse :=
    match alookup savedTexts blockId with
    | some t => t
    | none => getResolvedText updatedBlocks stored blockId it.str
  { id := blockId, text := textToUse, «section» := sect,
    spanIndex := index, x := tx.e, txf := tx.f,
    fontSizeSq := tx.a * tx.a + tx.b * tx.b,
    width := it.width * scale,
    fontFamily := if it.fontName = "" then "sans-serif" else it.fontName,
    isEdited := textToUse != it.str }

/-- The extraction loop of `renderPage` (DocumentCanvas.tsx),
`textContent.items.forEach((item, index) => ...)`: runs whose trimmed
text is empty are skipped (but still consume their index); otherwise the
section guess is updated and a block is emitted. -/
def extractBlocksGo (vt : Mat6) (scale : ℚ) (pageNumber : Nat)
    (savedTexts updatedBlocks : List (String × String))
    (stored : Option StoredEdits) :
    List TextItem → Nat → String → List ResumeBlock
  | [], _, _ => []
  | it :: rest, index, sectionGuess =>
    if strTrim it.str = "" then
      extractBlocksGo vt scale pageNumber savedTexts updatedBlocks stored
        rest (index + 1) sectionGuess
    else
      extractedBlock vt scale pageNumber savedTexts updatedBlocks stored
        it index sectionGuess ::
      extractBlocksGo vt scale pageNumber savedTexts updatedBlocks stored
        rest (index + 1) (sectionOf sectionGuess it.str)

/-- Whole-page extraction: the loop starting at index 0 with section
guess `content`. -/
def extractBlocks (vt : Mat6) (scale : ℚ) (pageNumber : Nat)
    (savedTexts updatedBlocks : List (String × String))
    (stored : Option StoredEdits) (items : List TextItem) :
    List ResumeBlock :=
  extractBlocksGo vt scale pageNumber savedTexts updatedBlocks stored
    items 0 "content"

/-! ## Helper lemmas on the association-list embedding of JS maps -/

theorem alookup_aset_self {α : Type} (l : List (String × α)) (k : String)
    (v : α) : alookup (aset l k v) k = some v := by
  induction l with
  | nil => simp [aset, alookup]
  | cons p rest ih =>
    obtain ⟨k', v'⟩ := p
    by_cases h : k' = k
    · subst h
      simp [aset, alookup]
    · simp [aset, alookup, h, ih]

theorem alookup_mem {α : Type} {l : List (String × α)} {k : String} {v : α}
    (h : alookup l k = some v) : (k, v) ∈ l := by
  induction l with
  | nil => simp [alookup] at h
  | cons p rest ih =>
    obtain ⟨k', v'⟩ := p
    by_cases hk : k' = k
    · subst hk
      simp [alookup] at h
      simp [h]
    · simp [alookup, hk] at h
      exact List.mem_cons_of_mem _ (ih h)

theorem filter_key_eq_nil {α : Type} {l : List (String × α)} {k : String}
    (h : k ∉ l.map Prod.fst) : l.filter (fun p => p.1 == k) = [] := by
  induction l with
  | nil => rfl
  | cons p rest ih =>
    simp only [List.map_cons, List.mem_cons, not_or] at h
    have hne : (p.1 == k) = false := by
      rw [beq_eq_false_iff_ne]
      exact fun hh => h.1 hh.symm
    simp [List.filter_cons, hne, ih h.2]

theorem mem_keys_aset {α : Type} {l : List (String × α)} {k x : String}
    {v : α} (h : x ∈ (aset l k v).map Prod.fst) :
    x ∈ l.map Prod.fst ∨ x = k := by
  induction l with
  | nil => simp [aset] at h; simp [h]
  | cons p rest ih =>
    obtain ⟨k', v'⟩ := p
    by_cases hk : k' = k
    · subst hk
      simp [aset] at h
      rcases h with h | h
      · simp [h]
      · exact Or.inl (by simp [h])
    · simp only [aset, if_neg hk, List.map_cons, List.mem_cons] at h
      rcases h with h | h
      · exact Or.inl (by simp [h])
      · rcases ih h with h' | h'
        · exact Or.inl (by simp [h'])
        · exact Or.inr h'

theorem aset_keys_nodup {α : Type} {l : List (String × α)} (k : String)
    (v : α) (h : (l.map Prod.fst).Nodup) :
    ((aset l k v).map Prod.fst).Nodup := by
  induction l with
  | nil => simp [aset]
  | cons p rest ih =>
    obtain ⟨k', v'⟩ := p
    simp only [List.map_cons, List.nodup_cons] at h
    by_cases hk : k' = k
    · subst hk
      simpa [aset, List.nodup_cons] using h
    · simp only [aset, if_neg hk, List.map_cons]
      refine List.nodup_cons.mpr ⟨?_, ih h.2⟩
      intro hmem
      rcases mem_keys_aset hmem with h' | h'
      · exact h.1 h'
      · exact hk h'

theorem mem_aset {α : Type} {l : List (String × α)} {k : String} {v : α}
    {p : String × α} (h : p ∈ aset l k v) : p = (k, v) ∨ p ∈ l := by
  induction l with
  | nil =>
    simp only [aset, List.mem_singleton] at h
    exact Or.inl h
  | cons q rest ih =>
    obtain ⟨k', v'⟩ := q
    by_cases hk : k' = k
    · subst hk
      rw [(show aset ((k', v') :: rest) k' v = (k', v) :: rest by
        simp [aset]), List.mem_cons] at h
      cases h with
      | inl h => exact Or.inl h
      | inr h => exact Or.inr (List.mem_cons_of_mem _ h)
    · rw [(show aset ((k', v') :: rest) k v = (k', v') :: aset rest k v by
        simp [aset, hk]), List.mem_cons] at h
      cases h with
      | inl h => exact Or.inr (List.mem_cons.mpr (Or.inl h))
      | inr h =>
        cases ih h with
        | inl h' => exact Or.inl h'
        | inr h' => exact Or.inr (List.mem_cons_of_mem _ h')

theorem aset_forall {α : Type} {P : String × α → Prop}
    {l : List (String × α)} {k : String} {v : α} (hl : ∀ p ∈ l, P p)
    (hkv : P (k, v)) : ∀ p ∈ aset l k v, P p := by
  intro p hp
  cases mem_aset hp with
  | inl h => rw [h]; exact hkv
  | inr h => exact hl p h

theorem aset_filter_self {α : Type} {l : List (String × α)} (k : String)
    (v : α) (h : (l.map Prod.fst).Nodup) :
    (aset l k v).filter (fun p => p.1 == k) = [(k, v)] := by
  induction l with
  | nil => simp [aset, List.filter]
  | cons p rest ih =>
    obtain ⟨k', v'⟩ := p
    simp only [List.map_cons, List.nodup_cons] at h
    by_cases hk : k' = k
    · subst hk
      simp [aset, List.filter_cons, filter_key_eq_nil h.1]
    · have hne : (k' == k) = false := by simp [hk]
      simp [aset, if_neg hk, List.filter_cons, hne, ih h.2]

theorem map_snd_filter_key (l : List (String × BlockUpdate)) (b : String)
    (h : ∀ p ∈ l, p.2.blockId = p.1) :
    (l.map Prod.snd).filter (fun u => u.blockId == b) =
      (l.filter (fun p => p.1 == b)).map Prod.snd := by
  induction l with
  | nil => rfl
  | cons p rest ih =>
    have hp : p.2.blockId = p.1 := h p (List.mem_cons_self _ _)
    have ih' := ih (fun q hq => h q (List.mem_cons_of_mem _ hq))
    by_cases hb : p.1 = b
    · simp [List.filter_cons, hp, hb, ih']
    · have h1 : (p.2.blockId == b) = false := by simp [hp, hb]
      have h2 : (p.1 == b) = false := by simp [hb]
      simp [List.filter_cons, h1, h2, ih']

/-! ## C1 — reconciliation priority between local and remote edits -/

/-- C1 counterexample: with a dirty local EditStore entry `"local"` and a
backend-saved (remote) entry `"remote"` for the same block id, the
display-text resolver returns the remote entry, not the local one, so the
claimed local-over-remote priority law fails on `getResolvedText`. -/
theorem C1_counterexample :
    getResolvedText [("block-1-0", "remote")]
        (some ⟨[("block-1-0", "local")], 1, "current_resume", true⟩)
        "block-1-0" "orig" = "remote" ∧
    ("remote" : String) ≠ "local" := by
  exact ⟨rfl, by decide⟩

/-- C1 (amended): the display-text resolver `getResolvedText` gives the
backend-saved (remote) entry priority over the local EditStore entry;
the local-dirty-wins rule holds only in the extraction merge
(`extractPDFBlocks`), where a dirty stored record matching the uploaded
file's name is applied and the remote edit set is never consulted. -/
theorem C1_amended :
    (∀ (updatedBlocks : List (String × String)) (stored : Option StoredEdits)
        (blockId originalText t : String),
      alookup updatedBlocks blockId = some t →
      getResolvedText updatedBlocks stored blockId originalText = t) ∧
    (∀ (st : StoredEdits) (fileName : String)
        (remoteEdits : List (String × String)) (blocks : List TextBlock),
      st.pdfName = fileName → st.isDirty = true →
      extractPDFBlocksMerge (some st) fileName remoteEdits blocks =
        applyEdits st.edits blocks) := by
  constructor
  · intro updatedBlocks stored blockId originalText t h
    simp [getResolvedText, h]
  · intro st fileName remoteEdits blocks h1 h2
    simp [extractPDFBlocksMerge, h1, h2]

/-- C1 witness: concrete instances of both parts of the amended claim. -/
theorem C1_witness :
    getResolvedText [("block-1-0", "remote")]
        (some ⟨[("block-1-0", "local")], 1, "doc.pdf", true⟩)
        "block-1-0" "orig" = "remote" ∧
    extractPDFBlocksMerge (some ⟨[("block-1-0", "local")], 1, "doc.pdf", true⟩)
        "doc.pdf" [("block-1-0", "remote")]
        [⟨"block-1-0", "orig", 0, 0, 10, 12, 0, 12, "Arial", "paragraph", none⟩] =
      applyEdits [("block-1-0", "local")]
        [⟨"block-1-0", "orig", 0, 0, 10, 12, 0, 12, "Arial", "paragraph", none⟩] :=
  ⟨C1_amended.1 [("block-1-0", "remote")]
      (some ⟨[("block-1-0", "local")], 1, "doc.pdf", true⟩)
      "block-1-0" "orig" "remote" rfl,
   C1_amended.2 ⟨[("block-1-0", "local")], 1, "doc.pdf", true⟩ "doc.pdf"
      [("block-1-0", "remote")]
      [⟨"block-1-0", "orig", 0, 0, 10, 12, 0, 12, "Arial", "paragraph", none⟩]
      rfl rfl⟩

/-! ## C5 — merge under a different document identity -/

/-- C5 counterexample: merging an update for document `"B"` while the
stored record belongs to document `"A"` does not retain the previous
edits — the resulting record holds only the new update, so the claimed
retention (and cross-document leak) does not happen. -/
theorem C5_counterexample :
    alookup (saveEditsToStorage [⟨"b2", "old", "y", none⟩] "B" true 5
        (some ⟨[("b1", "x")], 1, "A", false⟩)).edits "b1" = none ∧
    (saveEditsToStorage [⟨"b2", "old", "y", none⟩] "B" true 5
        (some ⟨[("b1", "x")], 1, "A", false⟩)).edits = [("b2", "y")] := by
  exact ⟨rfl, rfl⟩

/-- C5 (amended): a `saveEditsToStorage` call for a different
`documentIdentity` than the stored one by itself starts a fresh record:
it behaves exactly as if no record existed, so the resulting record is
keyed to the new identity and contains only the new updates — no
explicit `clear()` is needed and no edits leak across documents. -/
theorem C5_amended (updates : List BlockUpdate) (d2 : String)
    (markDirty : Bool) (now : Nat) (st : StoredEdits)
    (hne : st.pdfName ≠ d2) :
    saveEditsToStorage updates d2 markDirty now (some st) =
      saveEditsToStorage updates d2 markDirty now none ∧
    (saveEditsToStorage updates d2 markDirty now (some st)).pdfName = d2 := by
  constructor
  · simp [saveEditsToStorage, hne]
  · simp [saveEditsToStorage]

/-- C5 witness: a concrete merge under a changed document identity. -/
theorem C5_witness :
    saveEditsToStorage [⟨"b2", "old", "y", none⟩] "B" true 5
        (some ⟨[("b1", "x")], 1, "A", false⟩) =
      saveEditsToStorage [⟨"b2", "old", "y", none⟩] "B" true 5 none ∧
    (saveEditsToStorage [⟨"b2", "old", "y", none⟩] "B" true 5
        (some ⟨[("b1", "x")], 1, "A", false⟩)).pdfName = "B" :=
  C5_amended [⟨"b2", "old", "y", none⟩] "B" true 5
    ⟨[("b1", "x")], 1, "A", false⟩ (by decide)

/-! ## C2 — flush return value vs. remaining pending saves -/

/-- C2 counterexample: when a save is already in flight
(`isSavingRef.current`), `saveChanges` returns `true` immediately even
though a pending save remains afterwards — refuting the claimed
"returns true iff no pending saves remain". -/
theorem C2_counterexample :
    (saveChanges true ⟨"t", "block-1-0", "t", "content", false, none,
        [("block-1-0", ⟨"block-1-0", "a", "b", none⟩)], ["block-1-0"],
        true, none⟩).1 = true ∧
    (saveChanges true ⟨"t", "block-1-0", "t", "content", false, none,
        [("block-1-0", ⟨"block-1-0", "a", "b", none⟩)], ["block-1-0"],
        true, none⟩).2.pendingSaves ≠ [] := by
  constructor
  · rfl
  · decide

/-- C2 (amended): when no save is already in flight, `saveChanges`
returns `true` iff no pending saves remain after the operation
(including the trivial empty-queue case); when a save is already in
flight it returns `true` immediately and leaves the state — pending
saves included — untouched. -/
theorem C2_amended (st : CanvasState) (saveOk : Bool) :
    (st.isSaving = false →
      ((saveChanges saveOk st).1 = true ↔
        (saveChanges saveOk st).2.pendingSaves = [])) ∧
    (st.isSaving = true → saveChanges saveOk st = (true, st)) := by
  constructor
  · intro h
    by_cases hp : st.pendingSaves.isEmpty
    · have hnil : st.pendingSaves = [] := by
        simpa [List.isEmpty_iff] using hp
      simp [saveChanges, hp, hnil]
    · have hne : st.pendingSaves ≠ [] := by
        simpa [List.isEmpty_iff] using hp
      cases saveOk with
      | false => simp [saveChanges, hp, h, hne]
      | true => simp [saveChanges, hp, h]
  · intro h
    simp [saveChanges, h]

/-- C2 witness: the trivial empty-queue flush returns `true`. -/
theorem C2_witness :
    (saveChanges true ⟨"t", "block-1-0", "t", "content", false, none, [],
        [], false, none⟩).1 = true :=
  ((C2_amended ⟨"t", "block-1-0", "t", "content", false, none, [], [],
      false, none⟩ true).1 rfl).mpr rfl

/-! ## C3 — pending-save queue deduplication per block id -/

/-- C3: two saves queued for the same block id before either completes
leave exactly one queue entry for that id, holding the latest text (the
newer save replaces the older one), and a subsequent flush issues exactly
one network request for that id, reflecting the latest text.  The two
well-formedness hypotheses state that the queue is a JS `Map`: keys are
distinct and each entry's value carries its key as `blockId`. -/
theorem C3_queue_dedup (st : CanvasState) (b o1 t1 o2 t2 : String)
    (s1 s2 : Option String)
    (hwf1 : (st.pendingSaves.map Prod.fst).Nodup)
    (hwf2 : ∀ p ∈ st.pendingSaves, p.2.blockId = p.1)
    (h1 : o1 ≠ t1) (h2 : o2 ≠ t2) :
    ((queueBlockSave (queueBlockSave st b o1 t1 s1) b o2 t2 s2).pendingSaves.filter
        (fun p => p.1 == b)).length = 1 ∧
    alookup (queueBlockSave (queueBlockSave st b o1 t1 s1) b o2 t2
        s2).pendingSaves b = some ⟨b, o2, t2, s2⟩ ∧
    (flushRequests (queueBlockSave (queueBlockSave st b o1 t1 s1) b o2 t2
        s2)).filter (fun u => u.blockId == b) = [⟨b, o2, t2, s2⟩] := by
  have hq : (queueBlockSave (queueBlockSave st b o1 t1 s1) b o2 t2
      s2).pendingSaves =
      aset (aset st.pendingSaves b ⟨b, o1, t1, s1⟩) b ⟨b, o2, t2, s2⟩ := by
    simp [queueBlockSave, h1, h2]
  have hnodup1 : ((aset st.pendingSaves b
      (⟨b, o1, t1, s1⟩ : BlockUpdate)).map Prod.fst).Nodup :=
    aset_keys_nodup b _ hwf1
  have hfilter := aset_filter_self (l := aset st.pendingSaves b
    ⟨b, o1, t1, s1⟩) b (⟨b, o2, t2, s2⟩ : BlockUpdate) hnodup1
  have hwf2' : ∀ p ∈ aset (aset st.pendingSaves b ⟨b, o1, t1, s1⟩) b
      (⟨b, o2, t2, s2⟩ : BlockUpdate), p.2.blockId = p.1 :=
    aset_forall (aset_forall hwf2 rfl) rfl
  refine ⟨?_, ?_, ?_⟩
  · rw [hq, hfilter]
    rfl
  · rw [hq]
    exact alookup_aset_self _ _ _
  · rw [flushRequests, hq, map_snd_filter_key _ b hwf2', hfilter]
    rfl

/-- C3 witness: two concrete saves for `"block-1-0"` starting from an
empty queue. -/
theorem C3_witness :
    ((queueBlockSave (queueBlockSave ⟨"t", "block-1-0", "t", "content",
        false, none, [], [], false, none⟩ "block-1-0" "A" "B" none)
        "block-1-0" "B" "C" none).pendingSaves.filter
        (fun p => p.1 == "block-1-0")).length = 1 ∧
    alookup (queueBlockSave (queueBlockSave ⟨"t", "block-1-0", "t",
        "content", false, none, [], [], false, none⟩ "block-1-0" "A" "B"
        none) "block-1-0" "B" "C" none).pendingSaves "block-1-0" =
      some ⟨"block-1-0", "B", "C", none⟩ ∧
    (flushRequests (queueBlockSave (queueBlockSave ⟨"t", "block-1-0", "t",
        "content", false, none, [], [], false, none⟩ "block-1-0" "A" "B"
        none) "block-1-0" "B" "C" none)).filter
        (fun u => u.blockId == "block-1-0") =
      [⟨"block-1-0", "B", "C", none⟩] :=
  C3_queue_dedup ⟨"t", "block-1-0", "t", "content", false, none, [], [],
      false, none⟩ "block-1-0" "A" "B" "B" "C" none none
    (by simp) (by simp) (by decide) (by decide)

/-! ## C6 — Escape reverts to the rollback snapshot without queueing -/

/-- C6: from a clean focused state (the span shows the block's committed
text), focusing snapshots the text, typing any `t`, and pressing Escape
restores the live text to the rollback snapshot and blurs back to Clean:
the committed text, the dirty flag, the pending-save queue and the
`localStorage` record are all unchanged, so no save is enqueued. -/
theorem C6_escape_reverts (st : CanvasState) (t : String) (now : Nat)
    (h : st.spanText = st.blockText) :
    (handleEscape now (typeText t (handleFocus st))).spanText =
      st.blockText ∧
    (handleEscape now (typeText t (handleFocus st))).blockText =
      st.blockText ∧
    (handleEscape now (typeText t (handleFocus st))).pendingSaves =
      st.pendingSaves ∧
    (handleEscape now (typeText t (handleFocus st))).isEdited =
      st.isEdited ∧
    (handleEscape now (typeText t (handleFocus st))).stored = st.stored ∧
    (handleEscape now (typeText t (handleFocus st))).snapshot =
      some st.blockText := by
  by_cases hb : st.blockText = ""
  · simp [handleEscape, handleFocus, typeText, handleBlur, h, hb]
  · simp [handleEscape, handleFocus, typeText, handleBlur, h, hb]

/-- C6 witness: the spec's own scenario — `"Engineer"` edited to
`"Enginer"`, then Escape. -/
theorem C6_witness :
    (handleEscape 0 (typeText "Enginer" (handleFocus ⟨"Engineer",
        "block-1-0", "Engineer", "experience", false, none, [], [], false,
        none⟩))).spanText = "Engineer" ∧
    (handleEscape 0 (typeText "Enginer" (handleFocus ⟨"Engineer",
        "block-1-0", "Engineer", "experience", false, none, [], [], false,
        none⟩))).blockText = "Engineer" ∧
    (handleEscape 0 (typeText "Enginer" (handleFocus ⟨"Engineer",
        "block-1-0", "Engineer", "experience", false, none, [], [], false,
        none⟩))).pendingSaves = [] ∧
    (handleEscape 0 (typeText "Enginer" (handleFocus ⟨"Engineer",
        "block-1-0", "Engineer", "experience", false, none, [], [], false,
        none⟩))).isEdited = false ∧
    (handleEscape 0 (typeText "Enginer" (handleFocus ⟨"Engineer",
        "block-1-0", "Engineer", "experience", false, none, [], [], false,
        none⟩))).stored = none ∧
    (handleEscape 0 (typeText "Enginer" (handleFocus ⟨"Engineer",
        "block-1-0", "Engineer", "experience", false, none, [], [], false,
        none⟩))).snapshot = some "Engineer" :=
  C6_escape_reverts ⟨"Engineer", "block-1-0", "Engineer", "experience",
    false, none, [], [], false, none⟩ "Enginer" 0 rfl

/-! ## C4 — retry behaviour of the remote save -/

theorem sadd_mem_self (l : List String) (x : String) : x ∈ sadd l x := by
  by_cases h : x ∈ l
  · simp [sadd, h]
  · simp [sadd, h]

theorem updateResumeBlocks_dedup (blocks : List BlockUpdate) (retry : Nat)
    (outcome : Nat → FetchOutcome) (pending : List String)
    (h : blocks.isEmpty = false)
    (hkey : getRequestKey blocks ∈ pending) :
    updateResumeBlocks blocks retry outcome pending = (.joinsPending, 0) := by
  cases retry <;> simp [updateResumeBlocks, h, hkey]

/-- C4 counterexample: with a full retry budget and a fresh request key,
a request timeout (abort) is surfaced after a single attempt — not
retried — and a transient network failure (TypeError) makes exactly one
fetch attempt and then never settles, so its error is never surfaced;
both halves of the claimed retry-then-surface behaviour fail. -/
theorem C4_counterexample :
    updateResumeBlocks [⟨"block-1-0", "2024", "2025", none⟩] 1
        (fun _ => FetchOutcome.abortErr) [] =
      (.settled (.error timeoutSaveError), 1) ∧
    updateResumeBlocks [⟨"block-1-0", "2024", "2025", none⟩] 1
        (fun _ => FetchOutcome.typeErr) [] =
      (.neverSettles, 1) := by
  exact ⟨rfl, rfl⟩

/-- C4 (amended): for a non-empty update list whose request key is not
already in flight, exactly one fetch attempt is ever made.  A request
timeout (default 10s, surfaced as an abort) is surfaced immediately as a
network error, with no retry.  A transient network failure (fetch
`TypeError`) is surfaced as a network error only when the retry budget
is zero; with budget remaining (the default 1), the in-catch retry is
intercepted by the `pendingRequests` dedup — the key is deleted only in
the `finally`, after the retry's return value is computed — so the
recursive call returns the original still-pending promise, the two
promises adopt each other, and the returned promise never settles: no
second fetch attempt is made and no error is ever surfaced. -/
theorem C4_amended (blocks : List BlockUpdate) (retry : Nat)
    (outcome : Nat → FetchOutcome) (pending : List String)
    (h : blocks ≠ [])
    (hkey : getRequestKey blocks ∉ pending) :
    ((updateResumeBlocks blocks retry outcome pending).2 = 1) ∧
    (outcome 0 = .abortErr →
      updateResumeBlocks blocks retry outcome pending =
        (.settled (.error timeoutSaveError), 1)) ∧
    (outcome 0 = .typeErr → 0 < retry →
      updateResumeBlocks blocks retry outcome pending =
        (.neverSettles, 1)) ∧
    (outcome 0 = .typeErr → retry = 0 →
      updateResumeBlocks blocks retry outcome pending =
        (.settled (.error networkSaveError), 1)) := by
  have hne : blocks.isEmpty = false := by
    cases blocks with
    | nil => exact absurd rfl h
    | cons a l => rfl
  refine ⟨?_, ?_, ?_, ?_⟩
  · cases retry with
    | zero => cases ho : outcome 0 <;>
        simp [updateResumeBlocks, hne, hkey, ho]
    | succ r =>
      cases ho : outcome 0 with
      | ok resp => simp [updateResumeBlocks, hne, hkey, ho]
      | httpErr s m => simp [updateResumeBlocks, hne, hkey, ho]
      | abortErr => simp [updateResumeBlocks, hne, hkey, ho]
      | typeErr =>
        have hrec := updateResumeBlocks_dedup blocks r outcome
          (sadd pending (getRequestKey blocks)) hne
          (sadd_mem_self pending (getRequestKey blocks))
        simp [updateResumeBlocks, hne, hkey, ho, hrec]
  · intro ha
    cases retry <;> simp [updateResumeBlocks, hne, hkey, ha]
  · intro ht hr
    cases retry with
    | zero => exact absurd hr (by omega)
    | succ r =>
      have hrec := updateResumeBlocks_dedup blocks r outcome
        (sadd pending (getRequestKey blocks)) hne
        (sadd_mem_self pending (getRequestKey blocks))
      simp [updateResumeBlocks, hne, hkey, ht, hrec, adoptRetryResult]
  · intro ht hr
    subst hr
    simp [updateResumeBlocks, hne, hkey, ht]

/-- C4 witness: with the default retry budget and a fresh key, a
network failure consumes exactly one fetch attempt. -/
theorem C4_witness :
    (updateResumeBlocks [⟨"block-1-0", "2024", "2025", none⟩] 1
        (fun _ => FetchOutcome.typeErr) []).2 = 1 :=
  (C4_amended [⟨"block-1-0", "2024", "2025", none⟩] 1
      (fun _ => FetchOutcome.typeErr) [] (by decide)
      (List.not_mem_nil _)).1

/-! ## C10 — filtering of no-op updates before transmission -/

/-- C10: `batchUpdateBlocks` never transmits an update whose text did not
change or whose new text is whitespace-only; when every update is
filtered out (or `updateResumeBlocks` receives an empty list) the call
resolves successfully with message `"No changes to save"` and performs
zero network requests. -/
theorem C10_no_op_filtering (blocks : List BlockUpdate)
    (outcome : Nat → FetchOutcome) (pending : List String) :
    (∀ u ∈ blocks.filter validForSave,
      u.oldText ≠ u.newText ∧ strTrim u.newText ≠ "") ∧
    ((∀ u ∈ blocks, u.oldText = u.newText ∨ strTrim u.newText = "") →
      batchUpdateBlocks blocks outcome pending =
        (.settled (.ok noChangesResponse), 0)) ∧
    (∀ retry, updateResumeBlocks [] retry outcome pending =
      (.settled (.ok noChangesResponse), 0)) ∧
    noChangesResponse.success = true ∧
    noChangesResponse.message = "No changes to save" := by
  refine ⟨?_, ?_, ?_, rfl, rfl⟩
  · intro u hu
    have hv : validForSave u = true := (List.mem_filter.mp hu).2
    simp only [validForSave, Bool.and_eq_true, bne_iff_ne,
      decide_eq_true_eq] at hv
    refine ⟨hv.1, ?_⟩
    intro hcontra
    have hlen := hv.2
    rw [hcontra] at hlen
    simp at hlen
  · intro hall
    have hnil : blocks.filter validForSave = [] := by
      rw [List.filter_eq_nil_iff]
      intro u hu
      rcases hall u hu with hc | hc
      · simp [validForSave, hc]
      · simp [validForSave, hc]
    simp [batchUpdateBlocks, hnil]
  · intro retry
    cases retry <;> simp [updateResumeBlocks]

/-- C10 witness: a batch consisting only of a no-op update resolves with
the trivial success and no request. -/
theorem C10_witness :
    batchUpdateBlocks [⟨"block-1-0", "same", "same", none⟩]
        (fun _ => FetchOutcome.typeErr) [] =
      (.settled (.ok noChangesResponse), 0) :=
  (C10_no_op_filtering [⟨"block-1-0", "same", "same", none⟩]
      (fun _ => FetchOutcome.typeErr) []).2.1 (by decide)

/-! ## C7 — export with no dirty block paints nothing -/

/-- C7: when no block state is dirty, both exporters emit no drawing
operation at all — no cover rectangle is painted and no replacement text
is drawn, so every page and fragment of the original document is left
unchanged in content. -/
theorem C7_clean_export_paints_nothing (widthOf : String → String → ℚ → ℚ)
    (pageHeights : List ℚ) (blocks : List TextBlock)
    (blockStates : List (String × EditableBlockState))
    (h : ∀ p ∈ blockStates, p.2.isDirty = false) :
    exportOps widthOf pageHeights blocks blockStates = [] ∧
    exportOpsV0 pageHeights blocks blockStates = [] := by
  have hstate : ∀ (bid : String) (state : EditableBlockState),
      alookup blockStates bid = some state → state.isDirty = false := by
    intro bid state hs
    exact h (bid, state) (alookup_mem hs)
  constructor
  · rw [exportOps]
    apply List.flatten_eq_nil_iff.mpr
    intro l hl
    rcases List.mem_map.mp hl with ⟨block, _, rfl⟩
    cases hs : alookup blockStates block.id with
    | none => simp [hs]
    | some state => simp [hs, hstate block.id state hs]
  · rw [exportOpsV0]
    apply List.flatten_eq_nil_iff.mpr
    intro l hl
    rcases List.mem_map.mp hl with ⟨block, _, rfl⟩
    cases hs : alookup blockStates block.id with
    | none => simp [hs]
    | some state => simp [hs, hstate block.id state hs]

/-- C7 witness: a concrete one-block document whose only state is clean
exports with no drawing operation. -/
theorem C7_witness :
    exportOps (fun _ _ _ => 0) [792]
        [⟨"block-1-0", "2024", 10, 10, 40, 12, 0, 12, "Arial",
          "paragraph", none⟩]
        [("block-1-0", ⟨"block-1-0", "2024", "2024", false, false, none⟩)]
      = [] ∧
    exportOpsV0 [792]
        [⟨"block-1-0", "2024", 10, 10, 40, 12, 0, 12, "Arial",
          "paragraph", none⟩]
        [("block-1-0", ⟨"block-1-0", "2024", "2024", false, false, none⟩)]
      = [] :=
  C7_clean_export_paints_nothing (fun _ _ _ => 0) [792]
    [⟨"block-1-0", "2024", 10, 10, 40, 12, 0, 12, "Arial", "paragraph",
      none⟩]
    [("block-1-0", ⟨"block-1-0", "2024", "2024", false, false, none⟩)]
    (by
      intro p hp
      simp only [List.mem_singleton] at hp
      rw [hp])

/-! ## C8 — extraction geometry per text run -/

/-- C8: a text run whose trimmed text is empty produces no block (the
loop moves on, still consuming the index); every other run produces a
block whose font size is `sqrt(a² + b²)` of the composed
(page-transform applied to text-space-transform) matrix and whose `y` is
the transformed baseline `tx[5]` minus that font size (top-left
origin). -/
theorem C8_extraction_geometry (vt : Mat6) (scale : ℚ) (pageNumber : Nat)
    (savedTexts updatedBlocks : List (String × String))
    (stored : Option StoredEdits) (it : TextItem) (rest : List TextItem)
    (index : Nat) (sectionGuess : String) :
    (strTrim it.str = "" →
      extractBlocksGo vt scale pageNumber savedTexts updatedBlocks stored
          (it :: rest) index sectionGuess =
        extractBlocksGo vt scale pageNumber savedTexts updatedBlocks stored
          rest (index + 1) sectionGuess) ∧
    (strTrim it.str ≠ "" →
      extractBlocksGo vt scale pageNumber savedTexts updatedBlocks stored
          (it :: rest) index sectionGuess =
        extractedBlock vt scale pageNumber savedTexts updatedBlocks stored
            it index sectionGuess ::
          extractBlocksGo vt scale pageNumber savedTexts updatedBlocks
            stored rest (index + 1) (sectionOf sectionGuess it.str)) ∧
    (extractedBlock vt scale pageNumber savedTexts updatedBlocks stored it
        index sectionGuess).fontSize =
      Real.sqrt (((transformMat vt it.transform).a ^ 2 +
        (transformMat vt it.transform).b ^ 2 : ℚ) : ℝ) ∧
    (extractedBlock vt scale pageNumber savedTexts updatedBlocks stored it
        index sectionGuess).y =
      ((transformMat vt it.transform).f : ℝ) -
        (extractedBlock vt scale pageNumber savedTexts updatedBlocks stored
          it index sectionGuess).fontSize := by
  refine ⟨?_, ?_, ?_, rfl⟩
  · intro h
    simp [extractBlocksGo, h]
  · intro h
    simp [extractBlocksGo, h]
  · show Real.sqrt _ = _
    congr 1
    simp [extractedBlock]
    ring

/-- C8 witness: a concrete run `"Hi"` under the identity page transform
with text transform `[3, 4, 0, 1, 10, 20]` yields font size
`sqrt(3² + 4²) = 5` and `y = 20 - 5`. -/
theorem C8_witness :
    (extractBlocksGo ⟨1, 0, 0, 1, 0, 0⟩ 1 1 [] [] none
        [⟨"Hi", ⟨3, 4, 0, 1, 10, 20⟩, 2, "F1"⟩] 0 "content" =
      extractedBlock ⟨1, 0, 0, 1, 0, 0⟩ 1 1 [] [] none
          ⟨"Hi", ⟨3, 4, 0, 1, 10, 20⟩, 2, "F1"⟩ 0 "content" ::
        extractBlocksGo ⟨1, 0, 0, 1, 0, 0⟩ 1 1 [] [] none [] (0 + 1)
          (sectionOf "content" "Hi")) ∧
    (extractedBlock ⟨1, 0, 0, 1, 0, 0⟩ 1 1 [] [] none
        ⟨"Hi", ⟨3, 4, 0, 1, 10, 20⟩, 2, "F1"⟩ 0 "content").fontSize =
      Real.sqrt (((transformMat ⟨1, 0, 0, 1, 0, 0⟩ ⟨3, 4, 0, 1, 10, 20⟩).a ^ 2 +
        (transformMat ⟨1, 0, 0, 1, 0, 0⟩ ⟨3, 4, 0, 1, 10, 20⟩).b ^ 2 : ℚ) : ℝ) :=
  ⟨((C8_extraction_geometry ⟨1, 0, 0, 1, 0, 0⟩ 1 1 [] [] none
      ⟨"Hi", ⟨3, 4, 0, 1, 10, 20⟩, 2, "F1"⟩ [] 0 "content").2.1 (by decide)),
   (C8_extraction_geometry ⟨1, 0, 0, 1, 0, 0⟩ 1 1 [] [] none
      ⟨"Hi", ⟨3, 4, 0, 1, 10, 20⟩, 2, "F1"⟩ [] 0 "content").2.2.1⟩

/-! ## C9 — font classification order and totality -/

/-- C9: `detectFontCategory` checks its keyword lists in the order
monospace, then sans-serif, then serif, then the generic-identifier
heuristic (classified serif), and otherwise defaults to sans-serif; it
never fails — every input resolves to one of these categories (the
`decorative` member of the source union is never produced). -/
theorem C9_classification_order (fontName : String) :
    (MONOSPACE_PATTERNS.any (fun p => strHasSub (strLower fontName) p) =
        true →
      detectFontCategory fontName = .monospace) ∧
    (MONOSPACE_PATTERNS.any (fun p => strHasSub (strLower fontName) p) =
        false →
      SANS_SERIF_PATTERNS.any (fun p => strHasSub (strLower fontName) p) =
        true →
      detectFontCategory fontName = .sansSerif) ∧
    (MONOSPACE_PATTERNS.any (fun p => strHasSub (strLower fontName) p) =
        false →
      SANS_SERIF_PATTERNS.any (fun p => strHasSub (strLower fontName) p) =
        false →
      SERIF_PATTERNS.any (fun p => strHasSub (strLower fontName) p) =
        true →
      detectFontCategory fontName = .serif) ∧
    (MONOSPACE_PATTERNS.any (fun p => strHasSub (strLower fontName) p) =
        false →
      SANS_SERIF_PATTERNS.any (fun p => strHasSub (strLower fontName) p) =
        false →
      SERIF_PATTERNS.any (fun p => strHasSub (strLower fontName) p) =
        false →
      (strStarts fontName "g_" || genericIdMatch fontName.data) = true →
      detectFontCategory fontName = .serif) ∧
    (MONOSPACE_PATTERNS.any (fun p => strHasSub (strLower fontName) p) =
        false →
      SANS_SERIF_PATTERNS.any (fun p => strHasSub (strLower fontName) p) =
        false →
      SERIF_PATTERNS.any (fun p => strHasSub (strLower fontName) p) =
        false →
      (strStarts fontName "g_" || genericIdMatch fontName.data) = false →
      detectFontCategory fontName = .sansSerif) ∧
    detectFontCategory fontName ≠ .decorative := by
  refine ⟨?_, ?_, ?_, ?_, ?_, ?_⟩
  · intro h1
    simp [detectFontCategory, h1]
  · intro h1 h2
    simp [detectFontCategory, h1, h2]
  · intro h1 h2 h3
    simp [detectFontCategory, h1, h2, h3]
  · intro h1 h2 h3 h4
    simp [detectFontCategory, h1, h2, h3, h4]
  · intro h1 h2 h3 h4
    simp [detectFontCategory, h1, h2, h3, h4]
  · simp only [detectFontCategory]
    split_ifs <;> simp

/-- C9 witness: a monospace identifier and an opaque subset-font
identifier classified through the generic heuristic. -/
theorem C9_witness :
    detectFontCategory "Courier-Bold" = .monospace ∧
    detectFontCategory "g_d0_f1" = .serif :=
  ⟨(C9_classification_order "Courier-Bold").1 (by decide),
   (C9_classification_order "g_d0_f1").2.2.2.1 (by decide) (by decide)
     (by decide) (by decide)⟩

end AnalytiCV
